import Mathlib

/-!
Verification of the model-selection core of the gemini-cli repository.

The development shallowly embeds four source files:
* the model registry (`models.ts`): supported-model list, defaults and
  `isSupportedModel`;
* the static selector `selectModel` with its helper `tryPick`
  (`packages/cli/src/config/modelSelection.ts`);
* the dynamic verifier `verifyModel` with its helper `checkModelExists`;
* the `withTimeout` wrapper over `Promise.race`.

Modelling conventions:
* TypeScript `string | undefined` becomes `Option String`; JavaScript
  truthiness of such a value (`!value`) is: `none` and `some ""` are falsy,
  every other value is truthy.  No trimming is performed by the source.
* A JavaScript promise is modelled denotationally by `Pending α`: its
  settle time (`none` when it never settles) and its settled outcome
  (`Except ApiError α`, `Except.error` for a rejected promise).
* An `async` function that may reject is modelled as returning
  `Except ApiError _`; `await e` is the evident `match` that propagates
  `Except.error` (a rethrow) and continues on `Except.ok`.
* `verifyModelT` additionally threads a trace (second component of the
  result): the list of model names passed to the probe client, in order of
  invocation.  This instrumentation is the only addition with respect to
  the source; `verifyModel` projects it away.
-/

namespace GeminiCli

/-! ## Model registry (source: `models.ts`) -/

def DEFAULT_GEMINI_MODEL : String := "gemini-2.5-pro"

def DEFAULT_GEMINI_FLASH_MODEL : String := "gemini-2.5-flash"

def DEFAULT_GEMINI_FLASH_LITE_MODEL : String := "gemini-2.5-flash-lite"

def DEFAULT_GEMINI_EMBEDDING_MODEL : String := "gemini-embedding-001"

def SUPPORTED_GEMINI_MODELS : List String :=
  ["gemini-2.5-pro", "gemini-2.5-flash", "gemini-2.5-flash-lite",
   "gemini-1.5-pro", "gemini-1.5-flash"]

/-- Source: `isSupportedModel(model) = !!model && SUPPORTED_GEMINI_MODELS.includes(model)`.
`!!model` is false exactly for `undefined` (`none`) and the empty string. -/
def isSupportedModel (model : Option String) : Bool :=
  match model with
  | none => false
  | some m => !m.isEmpty && SUPPORTED_GEMINI_MODELS.contains m

/-! ## Static selector (source: `modelSelection.ts`) -/

/-- Embedding of JavaScript `s.includes(pat)`: substring containment. -/
def strIncludes (s pat : String) : Bool :=
  decide (pat.data <:+: s.data)

/-- The rejection log line pushed by `tryPick`:
`Loading ${label} "${value}" failed, not a valid model name.` -/
def rejectionLine (label value : String) : String :=
  "Loading " ++ label ++ " \"" ++ value ++ "\" failed, not a valid model name."

structure CliArgs where
  model : Option String := none
deriving DecidableEq

structure Settings where
  model : Option String := none
deriving DecidableEq

structure SelectResult where
  model : String
  logs : List String
  hadFailure : Bool
deriving DecidableEq

/-- Source `tryPick(label, value, logs)`.  The mutable `logs` array is made
explicit: the function returns the picked value (if any) together with the
updated log list.  `if (!value) return undefined` skips `undefined` and the
empty string. -/
def tryPick (label : String) (value : Option String) (logs : List String) :
    Option String × List String :=
  match value with
  | none => (none, logs)
  | some v =>
    if v.isEmpty then (none, logs)
    else if isSupportedModel (some v) then (some v, logs)
    else (none, logs ++ [rejectionLine label v])

/-- Source `selectModel(argv, settings, envModel, defaultModel)`.  The
`??` chain is lazy: a later `tryPick` runs only when every earlier one
returned `undefined`, which the nested `match` mirrors.  `hadFailure` is
computed by scanning the logs for the substring `failed` before the final
`Using model` line is pushed, exactly as in the source. -/
def selectModel (argv : CliArgs) (settings : Settings) (envModel : Option String)
    (defaultModel : String := DEFAULT_GEMINI_MODEL) : SelectResult :=
  let res :=
    match tryPick "--model" argv.model [] with
    | (some m, logs) => (m, logs)
    | (none, logs1) =>
      match tryPick "settings.json" settings.model logs1 with
      | (some m, logs) => (m, logs)
      | (none, logs2) =>
        match tryPick "$GEMINI_MODEL" envModel logs2 with
        | (some m, logs) => (m, logs)
        | (none, logs3) => (defaultModel, logs3)
  let hadFailure := res.2.any (fun l => strIncludes l "failed")
  { model := res.1, logs := res.2 ++ ["Using model " ++ res.1], hadFailure := hadFailure }

/-! ### Reference formulation of the static selector, from the words of the
specification (for the refinement claims).  The candidate sources are the
ordered list of (label, value) pairs; the scan returns the first present,
registry-supported candidate (or the default) together with one rejection
line per present-but-unsupported candidate examined before stopping. -/

/-- Modelled from the spec: scan the candidate list in priority order.
Absent or empty candidates are skipped silently; a present unsupported
candidate contributes a rejection line; the first present supported
candidate stops the scan. -/
def selectScan (defaultModel : String) :
    List (String × Option String) → List String → String × List String
  | [], rej => (defaultModel, rej)
  | (label, v) :: rest, rej =>
    match v with
    | none => selectScan defaultModel rest rej
    | some s =>
      if s.isEmpty then selectScan defaultModel rest rej
      else if isSupportedModel (some s) then (s, rej)
      else selectScan defaultModel rest (rej ++ [rejectionLine label s])

/-- Modelled from the spec: the chosen model and the rejection lines of the
static selector, scanning cli, settings, env in fixed priority order. -/
def selectModelSpec (argv : CliArgs) (settings : Settings) (envModel : Option String)
    (defaultModel : String) : String × List String :=
  selectScan defaultModel
    [("--model", argv.model), ("settings.json", settings.model),
     ("$GEMINI_MODEL", envModel)] []

/-! ### Lemmas relating the static selector to the reference scan -/

theorem strIncludes_rejectionLine (label v : String) :
    strIncludes (rejectionLine label v) "failed" = true := by
  simp only [strIncludes, rejectionLine, decide_eq_true_eq]
  have h1 : "failed".data <:+: ("\" failed, not a valid model name." : String).data := by
    decide
  have h2 : ("\" failed, not a valid model name." : String).data <:+:
      ("Loading " ++ label ++ " \"" ++ v ++ "\" failed, not a valid model name.").data := by
    rw [String.data_append]
    exact (List.suffix_append _ _).isInfix
  exact h1.trans h2

/-- One `tryPick`-plus-fallthrough block agrees with one step of the
reference scan. -/
theorem staticStep (d label : String) (cand : Option String) (logs : List String)
    (rest : List (String × Option String)) :
    (match tryPick label cand logs with
     | (some m, logs2) => (m, logs2)
     | (none, logs2) => selectScan d rest logs2) =
      selectScan d ((label, cand) :: rest) logs := by
  match cand with
  | none => simp [tryPick, selectScan]
  | some v =>
    by_cases hv : v.isEmpty
    · simp [tryPick, selectScan, hv]
    · by_cases hs : isSupportedModel (some v)
      · simp [tryPick, selectScan, hv, hs]
      · simp [tryPick, selectScan, hv, hs]

/-- The static selector computes exactly the reference scan, with the final
`Using model` line appended and the failure flag obtained by the substring
scan of the rejection lines. -/
theorem selectModel_eq_spec_aux (argv : CliArgs) (settings : Settings)
    (env : Option String) (d : String) :
    selectModel argv settings env d =
      { model := (selectModelSpec argv settings env d).1,
        logs := (selectModelSpec argv settings env d).2 ++
          ["Using model " ++ (selectModelSpec argv settings env d).1],
        hadFailure := ((selectModelSpec argv settings env d).2).any
          (fun l => strIncludes l "failed") } := by
  obtain ⟨a⟩ := argv
  obtain ⟨s⟩ := settings
  have h3 : ∀ logs : List String,
      (match tryPick "$GEMINI_MODEL" env logs with
       | (some m, logs2) => (m, logs2)
       | (none, logs3) => (d, logs3)) =
        selectScan d [("$GEMINI_MODEL", env)] logs := by
    intro logs
    have := staticStep d "$GEMINI_MODEL" env logs []
    simpa [selectScan] using this
  have h2 : ∀ logs : List String,
      (match tryPick "settings.json" s logs with
       | (some m, logs2) => (m, logs2)
       | (none, logs2) =>
         match tryPick "$GEMINI_MODEL" env logs2 with
         | (some m, logs3) => (m, logs3)
         | (none, logs3) => (d, logs3)) =
        selectScan d [("settings.json", s), ("$GEMINI_MODEL", env)] logs := by
    intro logs
    have hmid :
        (match tryPick "settings.json" s logs with
         | (some m, logs2) => (m, logs2)
         | (none, logs2) =>
           match tryPick "$GEMINI_MODEL" env logs2 with
           | (some m, logs3) => (m, logs3)
           | (none, logs3) => (d, logs3)) =
          (match tryPick "settings.json" s logs with
           | (some m, logs2) => (m, logs2)
           | (none, logs2) => selectScan d [("$GEMINI_MODEL", env)] logs2) := by
      cases hA : tryPick "settings.json" s logs with
      | mk fst snd =>
        cases fst with
        | none => exact h3 snd
        | some m => rfl
    rw [hmid]
    exact staticStep d "settings.json" s logs [("$GEMINI_MODEL", env)]
  have h1 :
      (match tryPick "--model" a [] with
       | (some m, logs2) => (m, logs2)
       | (none, logs1) =>
         match tryPick "settings.json" s logs1 with
         | (some m, logs2) => (m, logs2)
         | (none, logs2) =>
           match tryPick "$GEMINI_MODEL" env logs2 with
           | (some m, logs3) => (m, logs3)
           | (none, logs3) => (d, logs3)) =
        selectScan d
          [("--model", a), ("settings.json", s), ("$GEMINI_MODEL", env)] [] := by
    have hmid :
        (match tryPick "--model" a [] with
         | (some m, logs2) => (m, logs2)
         | (none, logs1) =>
           match tryPick "settings.json" s logs1 with
           | (some m, logs2) => (m, logs2)
           | (none, logs2) =>
             match tryPick "$GEMINI_MODEL" env logs2 with
             | (some m, logs3) => (m, logs3)
             | (none, logs3) => (d, logs3)) =
          (match tryPick "--model" a [] with
           | (some m, logs2) => (m, logs2)
           | (none, logs1) =>
             selectScan d [("settings.json", s), ("$GEMINI_MODEL", env)] logs1) := by
      cases hA : tryPick "--model" a [] with
      | mk fst snd =>
        cases fst with
        | none => exact h2 snd
        | some m => rfl
    rw [hmid]
    exact staticStep d "--model" a []
      [("settings.json", s), ("$GEMINI_MODEL", env)]
  show
      (let res :=
        match tryPick "--model" a [] with
        | (some m, logs) => (m, logs)
        | (none, logs1) =>
          match tryPick "settings.json" s logs1 with
          | (some m, logs) => (m, logs)
          | (none, logs2) =>
            match tryPick "$GEMINI_MODEL" env logs2 with
            | (some m, logs) => (m, logs)
            | (none, logs3) => (d, logs3)
       let hadFailure := res.2.any (fun l => strIncludes l "failed")
       ({ model := res.1, logs := res.2 ++ ["Using model " ++ res.1],
          hadFailure := hadFailure } : SelectResult)) = _
  rw [show
      (match tryPick "--model" a [] with
       | (some m, logs) => (m, logs)
       | (none, logs1) =>
         match tryPick "settings.json" s logs1 with
         | (some m, logs) => (m, logs)
         | (none, logs2) =>
           match tryPick "$GEMINI_MODEL" env logs2 with
           | (some m, logs) => (m, logs)
           | (none, logs3) => (d, logs3)) =
        selectScan d
          [("--model", a), ("settings.json", s), ("$GEMINI_MODEL", env)] [] from h1]
  rfl

/-- A `List.any` over a list all of whose members satisfy the predicate
reduces to nonemptiness of the list. -/
theorem any_of_all_true (l : List String) (p : String → Bool)
    (h : ∀ x ∈ l, p x = true) : l.any p = !l.isEmpty := by
  cases l with
  | nil => rfl
  | cons a t => simp [h a (by simp)]

/-- Every rejection line produced by the reference scan contains the
substring `failed`. -/
theorem selectScan_rej_lines (d : String) :
    ∀ (cands : List (String × Option String)) (rej : List String),
      (∀ l ∈ rej, strIncludes l "failed" = true) →
      ∀ l ∈ (selectScan d cands rej).2, strIncludes l "failed" = true := by
  intro cands
  induction cands with
  | nil => intro rej h l hl; exact h l hl
  | cons c rest ih =>
    obtain ⟨label, v⟩ := c
    intro rej h l hl
    match v with
    | none => exact ih rej h l (by simpa [selectScan] using hl)
    | some s =>
      by_cases hv : s.isEmpty
      · exact ih rej h l (by simpa [selectScan, hv] using hl)
      · by_cases hs : isSupportedModel (some s)
        · simp only [selectScan, hv, hs, if_false, if_true, Bool.false_eq_true] at hl
          exact h l hl
        · refine ih (rej ++ [rejectionLine label s]) ?_ l
            (by simpa [selectScan, hv, hs] using hl)
          intro x hx
          rcases List.mem_append.mp hx with hx | hx
          · exact h x hx
          · simp only [List.mem_singleton] at hx
            subst hx
            exact strIncludes_rejectionLine label s

/-! ## Timeout wrapper (source: `withTimeout.ts`) and promise model -/

/-- Source `ApiError` interface: `status?: number; code?: number;
response?: { status?: number }; message?: string`. -/
structure ResponseInfo where
  status : Option Int := none
deriving DecidableEq

structure ApiError where
  status : Option Int := none
  code : Option Int := none
  response : Option ResponseInfo := none
  message : Option String := none
deriving DecidableEq

/-- Decidable equality of `Except` results, for evaluating concrete runs. -/
instance {e a : Type} [DecidableEq e] [DecidableEq a] : DecidableEq (Except e a) := fun x y =>
  match x, y with
  | Except.ok u, Except.ok v =>
    if h : u = v then Decidable.isTrue (by rw [h])
    else Decidable.isFalse (by intro hc; injection hc; contradiction)
  | Except.error u, Except.error v =>
    if h : u = v then Decidable.isTrue (by rw [h])
    else Decidable.isFalse (by intro hc; injection hc; contradiction)
  | Except.ok _, Except.error _ => Decidable.isFalse (by intro hc; injection hc)
  | Except.error _, Except.ok _ => Decidable.isFalse (by intro hc; injection hc)

/-- Denotation of a JavaScript promise: the time at which it settles
(`none` when it never settles) and its settled outcome. -/
structure Pending (α : Type) where
  time : Option Nat
  result : Except ApiError α

/-- The rejection value `new Error('timeout')` produced by the timer. -/
def timeoutError : ApiError := { message := some "timeout" }

/-- Source `withTimeout(promise, ms)`: `Promise.race` of the operation
against a timer that rejects with `Error('timeout')` at time `ms`.  The
observed outcome is the operation's own outcome when it settles strictly
before the timer, and the timeout rejection otherwise. -/
def withTimeout {α : Type} (op : Pending α) (ms : Nat) : Except ApiError α :=
  match op.time with
  | none => Except.error timeoutError
  | some t => if t < ms then op.result else Except.error timeoutError

/-! ## Dynamic verifier (source: `verifyModel` and `checkModelExists`) -/

structure ContentPart where
  text : String
deriving DecidableEq

structure Content where
  role : String
  parts : List ContentPart
deriving DecidableEq

structure CountTokensRequest where
  model : String
  contents : List Content
deriving DecidableEq

/-- The probe collaborator: `geminiClient.getContentGenerator().countTokens(req)`
returns a pending operation. -/
structure ContentGenerator where
  countTokens : CountTokensRequest → Pending Unit

structure GeminiClient where
  getContentGenerator : Unit → ContentGenerator

structure CheckResult where
  exists_ : Bool
  reason : Option String := none
deriving DecidableEq

/-- The status looked at by the catch block:
`error?.status ?? error?.code ?? error?.response?.status`
(nullish coalescing: the first field that is not `undefined` wins). -/
def errStatus (e : ApiError) : Option Int :=
  match e.status with
  | some s => some s
  | none =>
    match e.code with
    | some c => some c
    | none =>
      match e.response with
      | some r => r.status
      | none => none

/-- The classification performed by the catch block of `checkModelExists`.
`status && status >= 500` requires the status to be truthy (nonzero). -/
def classify (e : ApiError) : String :=
  let status := errStatus e
  if status = some 404 then "unknown"
  else if status = some 403 then "forbidden"
  else if status = some 401 then "unauthorized"
  else if status = some 400 then "invalid"
  else if status = some 429 then "rate_limited"
  else if (match status with
           | some s => (s != 0) && decide (500 ≤ s)
           | none => false) then "server_error"
  else if e.message = some "timeout" then "timeout"
  else "error"

/-- The minimal probe payload sent by `checkModelExists`:
`{ model, contents: [{ role: 'user', parts: [{ text: '' }] }] }`. -/
def probeRequest (modelName : String) : CountTokensRequest :=
  { model := modelName, contents := [{ role := "user", parts := [{ text := "" }] }] }

/-- The awaited expression inside the try block of `checkModelExists`. -/
def probeOutcome (client : GeminiClient) (modelName : String) (timeoutMs : Nat) :
    Except ApiError Unit :=
  withTimeout ((client.getContentGenerator ()).countTokens (probeRequest modelName))
    timeoutMs

/-- Source `checkModelExists(geminiClient, modelName, timeoutMs = 800)`.
The try block awaits the bounded probe; the catch block classifies the
rejection and returns `{ exists: false, reason }` — so both branches return
normally (`Except.ok`); the outer `Except` layer records that an async
function could in principle reject. -/
def checkModelExists (client : GeminiClient) (modelName : String)
    (timeoutMs : Nat := 800) : Except ApiError CheckResult :=
  match probeOutcome client modelName timeoutMs with
  | Except.ok _ => Except.ok { exists_ := true, reason := none }
  | Except.error err => Except.ok { exists_ := false, reason := some (classify err) }

structure VerifyResult where
  model : String
  logs : List String
deriving DecidableEq

/-- Log line `Model "${name}" not found. <hint>` pushed after a failed probe. -/
def notFoundLine (name hint : String) : String :=
  "Model \"" ++ name ++ "\" not found. " ++ hint

/-- Final log line `No model found. Falling back to default model "${d}"`. -/
def fallbackLine (d : String) : String :=
  "No model found. Falling back to default model \"" ++ d ++ "\""

/-- One candidate block of `verifyModel` (the source repeats this shape for
argv, settings and env, varying only the hint text):
`if (x) { const r = await checkModelExists(client, x); if (r.exists === true)
return { model: x, logs }; logs.push(...) }`.
`acc` carries the logs accumulated so far and the probe trace;
`Sum.inl` is the early return, `Sum.inr` falls through to the next block. -/
def attemptCandidate (client : GeminiClient) (value : Option String) (hint : String)
    (acc : List String × List String) :
    Except ApiError ((VerifyResult × List String) ⊕ (List String × List String)) :=
  match value with
  | none => Except.ok (Sum.inr acc)
  | some v =>
    if v.isEmpty then Except.ok (Sum.inr acc)
    else
      match checkModelExists client v with
      | Except.error err => Except.error err
      | Except.ok result =>
        if result.exists_ then Except.ok (Sum.inl ({ model := v, logs := acc.1 }, acc.2 ++ [v]))
        else Except.ok (Sum.inr (acc.1 ++ [notFoundLine v hint], acc.2 ++ [v]))

/-- Source `verifyModel(argvModel, settingsModel, envModel, geminiClient,
defaultModel = DEFAULT_GEMINI_MODEL)`, instrumented with the probe trace
(the second component lists the model names probed, in order). -/
def verifyModelT (argvModel settingsModel envModel : Option String)
    (client : GeminiClient) (defaultModel : String := DEFAULT_GEMINI_MODEL) :
    Except ApiError (VerifyResult × List String) :=
  match attemptCandidate client argvModel "Check your model name." ([], []) with
  | Except.error err => Except.error err
  | Except.ok (Sum.inl done) => Except.ok done
  | Except.ok (Sum.inr acc1) =>
    match attemptCandidate client settingsModel "Check your settings.json." acc1 with
    | Except.error err => Except.error err
    | Except.ok (Sum.inl done) => Except.ok done
    | Except.ok (Sum.inr acc2) =>
      match attemptCandidate client envModel "Check your environment variable." acc2 with
      | Except.error err => Except.error err
      | Except.ok (Sum.inl done) => Except.ok done
      | Except.ok (Sum.inr acc3) =>
        Except.ok ({ model := defaultModel, logs := acc3.1 ++ [fallbackLine defaultModel] },
                   acc3.2)

/-- The caller-visible `verifyModel`: chosen model and logs, trace projected
away. -/
def verifyModel (argvModel settingsModel envModel : Option String)
    (client : GeminiClient) (defaultModel : String := DEFAULT_GEMINI_MODEL) :
    Except ApiError VerifyResult :=
  (verifyModelT argvModel settingsModel envModel client defaultModel).map Prod.fst

/-! ### Derived observables of a single probe -/

/-- Whether a probe of `v` (with the default 800 bound) is observed as a
success by the verifier. -/
def probeOk (client : GeminiClient) (v : String) : Bool :=
  match probeOutcome client v 800 with
  | Except.ok _ => true
  | Except.error _ => false

/-- The classified reason of a probe of `v`, `none` on success. -/
def reasonOf (client : GeminiClient) (v : String) : Option String :=
  match probeOutcome client v 800 with
  | Except.ok _ => none
  | Except.error e => some (classify e)

/-! ### Reference formulation of the verifier chain.  `runCands` scans the
present candidates in priority order, stopping at the first observed probe
success; `candTriple` lists the present candidates with their hint texts. -/

def candOf (v : Option String) (hint : String) : List (String × String) :=
  match v with
  | none => []
  | some x => if x.isEmpty then [] else [(x, hint)]

def candTriple (a s e : Option String) : List (String × String) :=
  candOf a "Check your model name." ++ candOf s "Check your settings.json." ++
    candOf e "Check your environment variable."

def runCands (client : GeminiClient) (d : String) (logs trace : List String) :
    List (String × String) → VerifyResult × List String
  | [] => ({ model := d, logs := logs ++ [fallbackLine d] }, trace)
  | (v, hint) :: rest =>
    if probeOk client v then ({ model := v, logs := logs }, trace ++ [v])
    else runCands client d (logs ++ [notFoundLine v hint]) (trace ++ [v]) rest

/-! ### Concrete probe clients used as witnesses -/

/-- A client whose probe settles immediately and succeeds for every model. -/
def clientOkFast : GeminiClient :=
  { getContentGenerator := fun _ =>
      { countTokens := fun _ => { time := some 0, result := Except.ok () } } }

/-- A client whose probe settles immediately and rejects with `e` for every
model. -/
def clientErr (e : ApiError) : GeminiClient :=
  { getContentGenerator := fun _ =>
      { countTokens := fun _ => { time := some 0, result := Except.error e } } }

/-- A client whose probe succeeds exactly on the models in `names` and
rejects with `e` otherwise, settling immediately. -/
def clientOkOn (names : List String) (e : ApiError) : GeminiClient :=
  { getContentGenerator := fun _ =>
      { countTokens := fun req =>
          if names.contains req.model then { time := some 0, result := Except.ok () }
          else { time := some 0, result := Except.error e } } }

def err404 : ApiError := { status := some 404 }

def client404 : GeminiClient := clientErr err404

def client403 : GeminiClient := clientErr { status := some 403 }

def client401 : GeminiClient := clientErr { status := some 401 }

/-! ### Basic lemmas about the probe and the candidate blocks -/

theorem checkModelExists_eq (client : GeminiClient) (v : String) :
    checkModelExists client v 800 =
      Except.ok { exists_ := probeOk client v, reason := reasonOf client v } := by
  unfold checkModelExists probeOk reasonOf
  cases h : probeOutcome client v 800 <;> simp [h]

theorem attemptCandidate_none (client : GeminiClient) (hint : String)
    (acc : List String × List String) :
    attemptCandidate client none hint acc = Except.ok (Sum.inr acc) := rfl

theorem attemptCandidate_empty (client : GeminiClient) (hint : String)
    (acc : List String × List String) (v : String) (h : v.isEmpty = true) :
    attemptCandidate client (some v) hint acc = Except.ok (Sum.inr acc) := by
  simp [attemptCandidate, h]

theorem attemptCandidate_success (client : GeminiClient) (hint : String)
    (acc : List String × List String) (v : String) (h : v.isEmpty = false)
    (hp : probeOk client v = true) :
    attemptCandidate client (some v) hint acc =
      Except.ok (Sum.inl ({ model := v, logs := acc.1 }, acc.2 ++ [v])) := by
  simp [attemptCandidate, h, checkModelExists_eq, hp]

theorem attemptCandidate_fail (client : GeminiClient) (hint : String)
    (acc : List String × List String) (v : String) (h : v.isEmpty = false)
    (hp : probeOk client v = false) :
    attemptCandidate client (some v) hint acc =
      Except.ok (Sum.inr (acc.1 ++ [notFoundLine v hint], acc.2 ++ [v])) := by
  simp [attemptCandidate, h, checkModelExists_eq, hp]

/-- One candidate block agrees with one step of the reference scan, for any
continuation list `rest`. -/
theorem attempt_step (client : GeminiClient) (d : String) (cand : Option String)
    (hint : String) (acc : List String × List String) (rest : List (String × String)) :
    (match attemptCandidate client cand hint acc with
     | Except.error err => Except.error err
     | Except.ok (Sum.inl done) => Except.ok done
     | Except.ok (Sum.inr acc2) => Except.ok (runCands client d acc2.1 acc2.2 rest)) =
      Except.ok (runCands client d acc.1 acc.2 (candOf cand hint ++ rest)) := by
  match cand with
  | none => simp [attemptCandidate_none, candOf]
  | some v =>
    cases hv : v.isEmpty with
    | true => simp [attemptCandidate_empty client hint acc v hv, candOf, hv]
    | false =>
      cases hp : probeOk client v with
      | true =>
        simp [attemptCandidate_success client hint acc v hv hp, candOf, hv, runCands, hp]
      | false =>
        simp [attemptCandidate_fail client hint acc v hv hp, candOf, hv, runCands, hp]

/-- The instrumented verifier is exactly the reference scan over the present
candidates. -/
theorem verifyModelT_eq_run (a s e : Option String) (client : GeminiClient) (d : String) :
    verifyModelT a s e client d =
      Except.ok (runCands client d [] [] (candTriple a s e)) := by
  have h3 : ∀ acc : List String × List String,
      (match attemptCandidate client e "Check your environment variable." acc with
       | Except.error err => Except.error err
       | Except.ok (Sum.inl done) => Except.ok done
       | Except.ok (Sum.inr acc3) =>
         Except.ok (({ model := d, logs := acc3.1 ++ [fallbackLine d] } : VerifyResult),
                    acc3.2)) =
        Except.ok (runCands client d acc.1 acc.2
          (candOf e "Check your environment variable.")) := by
    intro acc
    have := attempt_step client d e "Check your environment variable." acc []
    simpa [runCands] using this
  have h2 : ∀ acc : List String × List String,
      (match attemptCandidate client s "Check your settings.json." acc with
       | Except.error err => Except.error err
       | Except.ok (Sum.inl done) => Except.ok done
       | Except.ok (Sum.inr acc2) =>
         match attemptCandidate client e "Check your environment variable." acc2 with
         | Except.error err => Except.error err
         | Except.ok (Sum.inl done) => Except.ok done
         | Except.ok (Sum.inr acc3) =>
           Except.ok (({ model := d, logs := acc3.1 ++ [fallbackLine d] } : VerifyResult),
                      acc3.2)) =
        Except.ok (runCands client d acc.1 acc.2
          (candOf s "Check your settings.json." ++
            candOf e "Check your environment variable.")) := by
    intro acc
    have hmid :
        (match attemptCandidate client s "Check your settings.json." acc with
         | Except.error err => Except.error err
         | Except.ok (Sum.inl done) => Except.ok done
         | Except.ok (Sum.inr acc2) =>
           match attemptCandidate client e "Check your environment variable." acc2 with
           | Except.error err => Except.error err
           | Except.ok (Sum.inl done) => Except.ok done
           | Except.ok (Sum.inr acc3) =>
             Except.ok (({ model := d, logs := acc3.1 ++ [fallbackLine d] } : VerifyResult),
                        acc3.2)) =
          (match attemptCandidate client s "Check your settings.json." acc with
           | Except.error err => Except.error err
           | Except.ok (Sum.inl done) => Except.ok done
           | Except.ok (Sum.inr acc2) =>
             Except.ok (runCands client d acc2.1 acc2.2
               (candOf e "Check your environment variable."))) := by
      cases hA : attemptCandidate client s "Check your settings.json." acc with
      | error err => rfl
      | ok val =>
        cases val with
        | inl done => rfl
        | inr acc2 => exact h3 acc2
    rw [hmid]
    exact attempt_step client d s "Check your settings.json." acc
      (candOf e "Check your environment variable.")
  have h1 :
      verifyModelT a s e client d =
        (match attemptCandidate client a "Check your model name." ([], []) with
         | Except.error err => Except.error err
         | Except.ok (Sum.inl done) => Except.ok done
         | Except.ok (Sum.inr acc1) =>
           Except.ok (runCands client d acc1.1 acc1.2
             (candOf s "Check your settings.json." ++
               candOf e "Check your environment variable."))) := by
    unfold verifyModelT
    cases hA : attemptCandidate client a "Check your model name." ([], []) with
    | error err => rfl
    | ok val =>
      cases val with
      | inl done => rfl
      | inr acc1 => exact h2 acc1
  rw [h1]
  have := attempt_step client d a "Check your model name." ([], [])
    (candOf s "Check your settings.json." ++ candOf e "Check your environment variable.")
  simpa [candTriple, List.append_assoc] using this

/-! ### Invariants of the reference scan, used for the early-stop claims -/

/-- Every probed name except possibly the last one failed its probe: the
scan never issues a probe after a successful one. -/
theorem runCands_dropLast_fail (client : GeminiClient) (d : String) :
    ∀ (cs : List (String × String)) (logs trace : List String),
      (∀ p ∈ trace, probeOk client p = false) →
      ∀ p ∈ (runCands client d logs trace cs).2.dropLast, probeOk client p = false := by
  intro cs
  induction cs with
  | nil =>
    intro logs trace h p hp
    exact h p (List.mem_of_mem_dropLast hp)
  | cons c rest ih =>
    obtain ⟨v, hint⟩ := c
    intro logs trace h p hp
    cases hv : probeOk client v with
    | true =>
      simp only [runCands, hv, if_true] at hp
      rw [List.dropLast_concat] at hp
      exact h p hp
    | false =>
      simp only [runCands, hv, Bool.false_eq_true, if_false] at hp
      refine ih (logs ++ [notFoundLine v hint]) (trace ++ [v]) ?_ p hp
      intro q hq
      rcases List.mem_append.mp hq with hq | hq
      · exact h q hq
      · simp only [List.mem_singleton] at hq
        subst hq
        exact hv

/-- When the last probed name succeeded, it is the chosen model, and the
log list has exactly one line per earlier (failed) probe. -/
theorem runCands_last_success (client : GeminiClient) (d : String) :
    ∀ (cs : List (String × String)) (logs trace : List String),
      (∀ p ∈ trace, probeOk client p = false) →
      logs.length = trace.length →
      ∀ res tr p, runCands client d logs trace cs = (res, tr) →
        tr.getLast? = some p → probeOk client p = true →
        res.model = p ∧ res.logs.length + 1 = tr.length := by
  intro cs
  induction cs with
  | nil =>
    intro logs trace h hlen res tr p heq hlast hpok
    have htr : tr = trace := by
      have := congrArg Prod.snd heq
      simpa [runCands] using this.symm
    subst htr
    have : probeOk client p = false := h p (List.mem_of_mem_getLast? (by simp [hlast]))
    rw [hpok] at this
    exact absurd this (by simp)
  | cons c rest ih =>
    obtain ⟨v, hint⟩ := c
    intro logs trace h hlen res tr p heq hlast hpok
    cases hv : probeOk client v with
    | true =>
      simp only [runCands, hv, if_true] at heq
      obtain ⟨h1, h2⟩ := Prod.mk.inj heq
      subst h1
      subst h2
      rw [List.getLast?_concat] at hlast
      have hpv : v = p := by injection hlast
      subst hpv
      refine ⟨rfl, ?_⟩
      simp [hlen]
    | false =>
      simp only [runCands, hv, Bool.false_eq_true, if_false] at heq
      refine ih (logs ++ [notFoundLine v hint]) (trace ++ [v]) ?_ (by simp [hlen])
        res tr p heq hlast hpok
      intro q hq
      rcases List.mem_append.mp hq with hq | hq
      · exact h q hq
      · simp only [List.mem_singleton] at hq
        subst hq
        exact hv

/-! ## Claim theorems -/

/-- C1: `selectModel` iterates the candidate sources in the fixed priority
order cli, settings, env; the first present, registry-supported candidate is
chosen immediately (later sources and the default ignored), each
present-but-unsupported candidate examined on the way appends the rejection
line `Loading <label> "<value>" failed, not a valid model name.`, the
default is chosen when no candidate is supported, and the final log line is
always `Using model <chosen>`.  Stated as: the implementation agrees with
the reference scan `selectModelSpec` built from the specification text. -/
theorem selectModel_follows_priority (argv : CliArgs) (settings : Settings)
    (env : Option String) (d : String) :
    (selectModel argv settings env d).model = (selectModelSpec argv settings env d).1 ∧
    (selectModel argv settings env d).logs =
      (selectModelSpec argv settings env d).2 ++
        ["Using model " ++ (selectModelSpec argv settings env d).1] := by
  rw [selectModel_eq_spec_aux]
  exact ⟨rfl, rfl⟩

/-- C6: the `hadFailure` flag of `selectModel` is true exactly when at least
one rejection log line was produced during the scan, independently of which
source (or the default) was finally chosen: the substring scan for `failed`
is equivalent to explicitly tracking the rejection lines of the reference
scan. -/
theorem selectModel_hadFailure_iff (argv : CliArgs) (settings : Settings)
    (env : Option String) (d : String) :
    (selectModel argv settings env d).hadFailure = true ↔
      (selectModelSpec argv settings env d).2 ≠ [] := by
  rw [selectModel_eq_spec_aux]
  have hall : ∀ l ∈ (selectModelSpec argv settings env d).2,
      strIncludes l "failed" = true := by
    intro l hl
    simp only [selectModelSpec] at hl
    exact selectScan_rej_lines d
      [("--model", argv.model), ("settings.json", settings.model),
       ("$GEMINI_MODEL", env)] []
      (by intro x hx; cases hx) l hl
  rw [show ((selectModelSpec argv settings env d).2).any (fun l => strIncludes l "failed") =
      !((selectModelSpec argv settings env d).2).isEmpty from
    any_of_all_true _ _ hall]
  simp [List.isEmpty_iff]

/-- C5: the classified reason of a failed probe is determined from the
numeric status taken from the `status` field, else the `code` field, else
the `status` field nested under `response`, and maps as 404 to unknown,
403 to forbidden, 401 to unauthorized, 400 to invalid, 429 to rate_limited,
at least 500 to server_error; with no applicable status, a message equal to
`timeout` gives timeout and anything else the generic `error`. -/
theorem classify_status_mapping (e : ApiError) :
    (∀ n : Int, e.status = some n → errStatus e = some n) ∧
    (e.status = none → ∀ n : Int, e.code = some n → errStatus e = some n) ∧
    (e.status = none → e.code = none →
      errStatus e = e.response.bind fun r => r.status) ∧
    (errStatus e = some 404 → classify e = "unknown") ∧
    (errStatus e = some 403 → classify e = "forbidden") ∧
    (errStatus e = some 401 → classify e = "unauthorized") ∧
    (errStatus e = some 400 → classify e = "invalid") ∧
    (errStatus e = some 429 → classify e = "rate_limited") ∧
    (∀ n : Int, errStatus e = some n → 500 ≤ n → classify e = "server_error") ∧
    ((∀ n : Int, errStatus e = some n →
        n ≠ 404 ∧ n ≠ 403 ∧ n ≠ 401 ∧ n ≠ 400 ∧ n ≠ 429 ∧ n < 500) →
      (e.message = some "timeout" → classify e = "timeout") ∧
      (e.message ≠ some "timeout" → classify e = "error")) := by
  refine ⟨?_, ?_, ?_, ?_, ?_, ?_, ?_, ?_, ?_, ?_⟩
  · intro n h; simp [errStatus, h]
  · intro h0 n h; simp [errStatus, h0, h]
  · intro h0 h1
    cases hr : e.response <;> simp [errStatus, h0, h1, hr]
  · intro h; simp [classify, h]
  · intro h; simp [classify, h]
  · intro h; simp [classify, h]
  · intro h; simp [classify, h]
  · intro h; simp [classify, h]
  · intro n h h500
    have h404 : n ≠ 404 := by omega
    have h403 : n ≠ 403 := by omega
    have h401 : n ≠ 401 := by omega
    have h400 : n ≠ 400 := by omega
    have h429 : n ≠ 429 := by omega
    have h0 : n ≠ 0 := by omega
    simp [classify, h, h404, h403, h401, h400, h429, h0, h500]
  · intro hspec
    constructor
    · intro hmsg
      cases hst : errStatus e with
      | none => simp [classify, hst, hmsg]
      | some n =>
        obtain ⟨h404, h403, h401, h400, h429, h500⟩ := hspec n hst
        simp [classify, hst, hmsg, h404, h403, h401, h400, h429,
          show ¬(500 ≤ n) by omega]
    · intro hmsg
      cases hst : errStatus e with
      | none => simp [classify, hst, hmsg]
      | some n =>
        obtain ⟨h404, h403, h401, h400, h429, h500⟩ := hspec n hst
        simp [classify, hst, hmsg, h404, h403, h401, h400, h429,
          show ¬(500 ≤ n) by omega]

/-- Witness for C5: the mapping evaluated at concrete errors. -/
theorem classify_status_mapping_witness :
    classify { status := some 404 } = "unknown" ∧
    classify { status := none, code := some 403 } = "forbidden" ∧
    classify { response := some { status := some 500 } } = "server_error" ∧
    classify { status := some 418, message := some "timeout" } = "timeout" ∧
    classify { status := some 418, message := some "boom" } = "error" := by
  refine ⟨?_, ?_, ?_, ?_, ?_⟩
  · exact (classify_status_mapping { status := some 404 }).2.2.2.1 (by decide)
  · exact (classify_status_mapping
      { status := none, code := some 403 }).2.2.2.2.1 (by decide)
  · exact (classify_status_mapping
      { response := some { status := some 500 } }).2.2.2.2.2.2.2.2.1 500 (by decide)
      (by decide)
  · have h := (classify_status_mapping
      { status := some 418, message := some "timeout" }).2.2.2.2.2.2.2.2.2
      (by intro n hn; refine ⟨?_, ?_, ?_, ?_, ?_, ?_⟩ <;> (injection hn with hn2; omega))
    exact h.1 (by decide)
  · have h := (classify_status_mapping
      { status := some 418, message := some "boom" }).2.2.2.2.2.2.2.2.2
      (by intro n hn; refine ⟨?_, ?_, ?_, ?_, ?_, ?_⟩ <;> (injection hn with hn2; omega))
    exact h.2 (by decide)

/-- C8: `withTimeout` races the operation against a timer: if the operation
settles strictly before the timer, its own outcome (success or failure) is
observed unchanged; if the timer fires first (the operation settles no
earlier than `ms`, or never), the observed result is the failure whose
message is `timeout`; and the per-probe bound of `checkModelExists`
defaults to 800. -/
theorem withTimeout_race :
    (∀ (α : Type) (op : Pending α) (ms t : Nat),
        op.time = some t → t < ms → withTimeout op ms = op.result) ∧
    (∀ (α : Type) (op : Pending α) (ms t : Nat),
        op.time = some t → ms ≤ t → withTimeout op ms = Except.error timeoutError) ∧
    (∀ (α : Type) (op : Pending α) (ms : Nat),
        op.time = none → withTimeout op ms = Except.error timeoutError) ∧
    timeoutError.message = some "timeout" ∧
    (∀ (client : GeminiClient) (name : String),
        checkModelExists client name = checkModelExists client name 800) := by
  refine ⟨?_, ?_, ?_, rfl, fun _ _ => rfl⟩
  · intro α op ms t h hlt; simp [withTimeout, h, hlt]
  · intro α op ms t h hle; simp [withTimeout, h, Nat.not_lt.mpr hle]
  · intro α op ms h; simp [withTimeout, h]

/-- Witness for C8: the race evaluated on concrete pending operations. -/
theorem withTimeout_race_witness :
    withTimeout ({ time := some 5, result := Except.ok () } : Pending Unit) 10 =
        Except.ok () ∧
    withTimeout ({ time := some 7, result := Except.error err404 } : Pending Unit) 10 =
        Except.error err404 ∧
    withTimeout ({ time := some 10, result := Except.ok () } : Pending Unit) 10 =
        Except.error timeoutError ∧
    withTimeout ({ time := none, result := Except.ok () } : Pending Unit) 10 =
        Except.error timeoutError :=
  ⟨withTimeout_race.1 Unit _ 10 5 rfl (by decide),
   withTimeout_race.1 Unit _ 10 7 rfl (by decide),
   withTimeout_race.2.1 Unit _ 10 10 rfl (by decide),
   withTimeout_race.2.2.1 Unit _ 10 rfl⟩

/-- C2: `verifyModel` stops probing as soon as one candidate probe
succeeds.  First conjunct: a present CLI candidate whose probe succeeds is
returned with empty logs and the probe trace is exactly that one name (one
probe in total, lower-priority candidates never probed).  Second conjunct:
in every run, every probed name except possibly the last failed its probe
(no probe is ever issued after a success).  Third conjunct: when the last
probed name succeeded, it is the chosen model and the logs are exactly one
line per earlier failed probe. -/
theorem verifyModel_stops_at_first_success :
    (∀ (client : GeminiClient) (v : String) (s e : Option String) (d : String),
        v.isEmpty = false → probeOk client v = true →
        verifyModelT (some v) s e client d =
          Except.ok ({ model := v, logs := [] }, [v])) ∧
    (∀ (client : GeminiClient) (a s e : Option String) (d : String)
        (res : VerifyResult) (tr : List String),
        verifyModelT a s e client d = Except.ok (res, tr) →
        ∀ p ∈ tr.dropLast, probeOk client p = false) ∧
    (∀ (client : GeminiClient) (a s e : Option String) (d : String)
        (res : VerifyResult) (tr : List String) (p : String),
        verifyModelT a s e client d = Except.ok (res, tr) →
        tr.getLast? = some p → probeOk client p = true →
        res.model = p ∧ res.logs.length + 1 = tr.length) := by
  refine ⟨?_, ?_, ?_⟩
  · intro client v s e d hv hp
    rw [verifyModelT_eq_run]
    simp [candTriple, candOf, hv, runCands, hp]
  · intro client a s e d res tr heq p hp
    rw [verifyModelT_eq_run] at heq
    injection heq with h
    have h2 : (runCands client d [] [] (candTriple a s e)).2 = tr := congrArg Prod.snd h
    exact runCands_dropLast_fail client d (candTriple a s e) [] []
      (by intro q hq; cases hq) p (by rw [h2]; exact hp)
  · intro client a s e d res tr p heq hlast hpok
    rw [verifyModelT_eq_run] at heq
    injection heq with h
    exact runCands_last_success client d (candTriple a s e) [] []
      (by intro q hq; cases hq) rfl res tr p h hlast hpok

/-- Witness for C2: a succeeding CLI candidate is probed once and returned
with empty logs; in a run where the settings candidate wins, the earlier
CLI probe failed and the chosen model is the last probed name. -/
theorem verifyModel_stops_at_first_success_witness :
    verifyModelT (some "m") (some "x") (some "y") clientOkFast "d" =
        Except.ok ({ model := "m", logs := [] }, ["m"]) ∧
    probeOk (clientOkOn ["s"] err404) "a" = false ∧
    ({ model := "s", logs := [notFoundLine "a" "Check your model name."] }
      : VerifyResult).model = "s" := by
  refine ⟨?_, ?_, ?_⟩
  · exact verifyModel_stops_at_first_success.1 clientOkFast "m" (some "x") (some "y")
      "d" (by decide) (by decide)
  · exact verifyModel_stops_at_first_success.2.1 (clientOkOn ["s"] err404)
      (some "a") (some "s") none "d"
      { model := "s", logs := [notFoundLine "a" "Check your model name."] }
      ["a", "s"] (by decide) "a" (by decide)
  · exact (verifyModel_stops_at_first_success.2.2 (clientOkOn ["s"] err404)
      (some "a") (some "s") none "d"
      { model := "s", logs := [notFoundLine "a" "Check your model name."] }
      ["a", "s"] "s" (by decide) (by decide) (by decide)).1

/-- C3: when all three candidates are present and every probe fails,
`verifyModel` returns the provided default, and its logs are exactly the
three not-found lines in priority order, each with its provenance hint,
followed by the fallback line naming the default verbatim. -/
theorem verifyModel_exhaustion (client : GeminiClient) (va vs ve d : String)
    (ha : va.isEmpty = false) (hs : vs.isEmpty = false) (he : ve.isEmpty = false)
    (pa : probeOk client va = false) (ps : probeOk client vs = false)
    (pe : probeOk client ve = false) :
    verifyModel (some va) (some vs) (some ve) client d =
      Except.ok
        { model := d,
          logs := [notFoundLine va "Check your model name.",
                   notFoundLine vs "Check your settings.json.",
                   notFoundLine ve "Check your environment variable.",
                   fallbackLine d] } := by
  unfold verifyModel
  rw [verifyModelT_eq_run]
  simp [candTriple, candOf, ha, hs, he, runCands, pa, ps, pe, Except.map]

/-- Witness for C3: three candidates rejected by 404 each. -/
theorem verifyModel_exhaustion_witness :
    verifyModel (some "a") (some "b") (some "c") client404 "my-default" =
      Except.ok
        { model := "my-default",
          logs := [notFoundLine "a" "Check your model name.",
                   notFoundLine "b" "Check your settings.json.",
                   notFoundLine "c" "Check your environment variable.",
                   fallbackLine "my-default"] } :=
  verifyModel_exhaustion client404 "a" "b" "c" "my-default"
    (by decide) (by decide) (by decide) (by decide) (by decide) (by decide)

/-- C4: no probe failure ever propagates to the caller: for every probe
client behaviour (any rejection shape, any settle time including never),
`checkModelExists` and `verifyModel` return normally (`Except.ok`). -/
theorem verifyModel_never_throws :
    (∀ (client : GeminiClient) (name : String) (t : Nat),
        (checkModelExists client name t).isOk = true) ∧
    (∀ (client : GeminiClient) (a s e : Option String) (d : String),
        (verifyModelT a s e client d).isOk = true) ∧
    (∀ (client : GeminiClient) (a s e : Option String) (d : String),
        (verifyModel a s e client d).isOk = true) := by
  refine ⟨?_, ?_, ?_⟩
  · intro client name t
    unfold checkModelExists
    cases h : probeOutcome client name t <;> rfl
  · intro client a s e d
    rw [verifyModelT_eq_run]
    rfl
  · intro client a s e d
    unfold verifyModel
    rw [verifyModelT_eq_run]
    rfl

/-- C10: the dynamic verifier never consults the static registry: a present
candidate whose probe succeeds is returned even when it is not in
`SUPPORTED_GEMINI_MODELS`, and with no candidates the returned default can
be an arbitrary string. -/
theorem verifyModel_ignores_registry :
    (∀ (client : GeminiClient) (v : String) (s e : Option String) (d : String),
        v.isEmpty = false → isSupportedModel (some v) = false →
        probeOk client v = true →
        verifyModel (some v) s e client d = Except.ok { model := v, logs := [] }) ∧
    (∀ (client : GeminiClient) (d : String),
        verifyModel none none none client d =
          Except.ok { model := d, logs := [fallbackLine d] }) := by
  constructor
  · intro client v s e d hv _ hp
    unfold verifyModel
    rw [verifyModelT_eq_run]
    simp [candTriple, candOf, hv, runCands, hp, Except.map]
  · intro client d
    unfold verifyModel
    rw [verifyModelT_eq_run]
    rfl

/-- Witness for C10: a name outside the registry is accepted by the dynamic
path when its probe succeeds, and an arbitrary unsupported default is
returned verbatim. -/
theorem verifyModel_ignores_registry_witness :
    verifyModel (some "bogus-model-xyz") (some "gemini-2.5-pro") none clientOkFast
        "gemini-2.5-pro" = Except.ok { model := "bogus-model-xyz", logs := [] } ∧
    verifyModel none none none client404 "not-a-registry-member" =
      Except.ok { model := "not-a-registry-member",
                  logs := [fallbackLine "not-a-registry-member"] } :=
  ⟨verifyModel_ignores_registry.1 clientOkFast "bogus-model-xyz"
      (some "gemini-2.5-pro") none "gemini-2.5-pro"
      (by decide) (by decide) (by decide),
   verifyModel_ignores_registry.2 client404 "not-a-registry-member"⟩

/-- C7 counterexample: a candidate consisting only of whitespace is NOT
treated as absent.  With cli = `" "`, `selectModel` emits a rejection log
line and sets `hadFailure`, and `verifyModel` issues a probe for `" "`
(the probe trace is `[" "]`), contradicting the claim that whitespace-only
values are silently skipped. -/
theorem whitespace_counterexample :
    (selectModel { model := some " " } { model := none } none
        DEFAULT_GEMINI_MODEL).hadFailure = true ∧
    (selectModel { model := some " " } { model := none } none
        DEFAULT_GEMINI_MODEL).logs =
      [rejectionLine "--model" " ", "Using model " ++ DEFAULT_GEMINI_MODEL] ∧
    verifyModelT (some " ") none none client404 DEFAULT_GEMINI_MODEL =
      Except.ok
        ({ model := DEFAULT_GEMINI_MODEL,
           logs := [notFoundLine " " "Check your model name.",
                    fallbackLine DEFAULT_GEMINI_MODEL] }, [" "]) ∧
    (verifyModelT (some " ") none none client404 DEFAULT_GEMINI_MODEL ≠
      Except.ok
        ({ model := DEFAULT_GEMINI_MODEL,
           logs := [fallbackLine DEFAULT_GEMINI_MODEL] }, [])) := by
  refine ⟨by decide, by decide, by decide, by decide⟩

/-- C7 as amended: candidates that are absent (`none`) or the empty string
are treated as not present — silently skipped with no rejection log line
and, in the dynamic case, no probe — but no trimming occurs: a non-empty
whitespace-only candidate counts as present, so `selectModel` emits a
rejection line for it and `verifyModel` probes it. -/
theorem absent_or_empty_skipped :
    (∀ (s : Settings) (e : Option String) (d : String),
        selectModel { model := some "" } s e d = selectModel { model := none } s e d) ∧
    (∀ (a : CliArgs) (e : Option String) (d : String),
        selectModel a { model := some "" } e d = selectModel a { model := none } e d) ∧
    (∀ (a : CliArgs) (s : Settings) (d : String),
        selectModel a s (some "") d = selectModel a s none d) ∧
    (∀ (client : GeminiClient) (s e : Option String) (d : String),
        verifyModelT (some "") s e client d = verifyModelT none s e client d) ∧
    (∀ (client : GeminiClient) (a e : Option String) (d : String),
        verifyModelT a (some "") e client d = verifyModelT a none e client d) ∧
    (∀ (client : GeminiClient) (a s : Option String) (d : String),
        verifyModelT a s (some "") client d = verifyModelT a s none client d) ∧
    (∀ (client : GeminiClient) (d : String),
        verifyModelT none none none client d =
          Except.ok ({ model := d, logs := [fallbackLine d] }, [])) ∧
    (∀ d : String,
        (selectModel { model := none } { model := none } none d).logs =
          ["Using model " ++ d]) ∧
    (∀ (v : String) (d : String), v.isEmpty = false →
        isSupportedModel (some v) = false →
        (selectModel { model := some v } { model := none } none d).logs =
          [rejectionLine "--model" v, "Using model " ++ d]) ∧
    (∀ (client : GeminiClient) (v : String) (d : String), v.isEmpty = false →
        probeOk client v = false →
        (verifyModelT (some v) none none client d).map Prod.snd =
          Except.ok [v]) := by
  have t0 : ∀ (label : String) (logs : List String),
      tryPick label (some "") logs = (none, logs) := fun _ _ => rfl
  have tn : ∀ (label : String) (logs : List String),
      tryPick label none logs = (none, logs) := fun _ _ => rfl
  have c0 : ∀ hint : String, candOf (some "") hint = [] := fun _ => rfl
  have cn : ∀ hint : String, candOf none hint = [] := fun _ => rfl
  refine ⟨fun _ _ _ => rfl, ?_, ?_, fun _ _ _ _ => rfl, ?_, ?_, fun _ _ => rfl,
    fun _ => rfl, ?_, ?_⟩
  · intro a e d
    simp only [selectModel, t0, tn]
  · intro a s d
    simp only [selectModel, t0, tn]
  · intro client a e d
    rw [verifyModelT_eq_run, verifyModelT_eq_run]
    simp only [candTriple, c0, cn]
  · intro client a s d
    rw [verifyModelT_eq_run, verifyModelT_eq_run]
    simp only [candTriple, c0, cn]
  · intro v d hv hs
    simp [selectModel, tryPick, hv, hs]
  · intro client v d hv hp
    rw [verifyModelT_eq_run]
    simp [candTriple, candOf, hv, runCands, hp, Except.map]

/-- Witness for the amended C7: evaluation at a whitespace-only candidate
and at a failing present candidate. -/
theorem absent_or_empty_skipped_witness :
    (selectModel { model := some " " } { model := none } none "dft").logs =
      [rejectionLine "--model" " ", "Using model " ++ "dft"] ∧
    (verifyModelT (some " ") none none client404 "dft").map Prod.snd =
      Except.ok [" "] :=
  ⟨absent_or_empty_skipped.2.2.2.2.2.2.2.2.1 " " "dft" (by decide) (by decide),
   absent_or_empty_skipped.2.2.2.2.2.2.2.2.2 client404 " " "dft" (by decide) (by decide)⟩

/-- C9 counterexample: the classified reason is not available to the caller
of `verifyModel`.  Two clients failing with different classified reasons
(forbidden versus unauthorized, as `checkModelExists` reports to its own
caller) produce identical `verifyModel` results, so the reason cannot be
recovered from what `verifyModel` returns. -/
theorem reason_not_exposed_counterexample :
    verifyModel (some "test-model") none none client403 DEFAULT_GEMINI_MODEL =
      verifyModel (some "test-model") none none client401 DEFAULT_GEMINI_MODEL ∧
    checkModelExists client403 "test-model" 800 =
      Except.ok { exists_ := false, reason := some "forbidden" } ∧
    checkModelExists client401 "test-model" 800 =
      Except.ok { exists_ := false, reason := some "unauthorized" } := by
  refine ⟨by decide, by decide, by decide⟩

/-- C9 as amended: the classified reason of a failed probe is computed and
returned by `checkModelExists` to its caller (`verifyModel`), but
`verifyModel` uses only the existence bit and returns `{ model, logs }`, so
the reason value is not exposed to the caller of `verifyModel` and need not
appear in the log text. -/
theorem reason_available_from_checkModelExists (client : GeminiClient)
    (name : String) (t : Nat) (err : ApiError)
    (h : probeOutcome client name t = Except.error err) :
    checkModelExists client name t =
      Except.ok { exists_ := false, reason := some (classify err) } := by
  unfold checkModelExists
  rw [h]

/-- Witness for the amended C9: a 403 rejection surfaces as the classified
reason `forbidden` in the `checkModelExists` result. -/
theorem reason_available_from_checkModelExists_witness :
    checkModelExists client403 "x" 800 =
      Except.ok { exists_ := false,
                  reason := some (classify { status := some 403 }) } :=
  reason_available_from_checkModelExists client403 "x" 800
    { status := some 403 } (by decide)

end GeminiCli
